import Mathlib

/-!
# MongoDB backup script (`scripts/backup.go`)

A shallow embedding of the backup orchestrator: `getEnv`, `runMongoDump`,
`uploadToGCS` and `main`, together with the part of Go's `time.Time.Format`
that the two layouts used by the script exercise.

The script talks to the outside world (environment, clock, `mongodump`,
the file system, the storage client).  Every such call is recorded as an
`Event` in the trace of a run, and its result is read from a `World`, a record
of oracles that answers each call.  A run is therefore a total function
`World → Outcome`, where an `Outcome` is the trace together with the process
exit status.
-/

namespace Backup

/-! ## Time formatting (the fragment of `time.Time.Format` used by the script) -/

/-- Broken-down wall-clock reading of a `time.Time` in its location: what
`Time.Date`, `Time.Clock` and `Time.Zone` return.  `offset` is the zone offset
in seconds east of UTC. -/
structure Time where
  year : Int
  month : Nat
  day : Nat
  hour : Nat
  minute : Nat
  second : Nat
  offset : Int
deriving DecidableEq, Repr

/-- Ranges of the fields that `Time.Date` and `Time.Clock` return. -/
def Time.Valid (t : Time) : Prop :=
  1 ≤ t.month ∧ t.month ≤ 12 ∧ 1 ≤ t.day ∧ t.day ≤ 31 ∧
  t.hour < 24 ∧ t.minute < 60 ∧ t.second < 60

instance (t : Time) : Decidable t.Valid := by
  unfold Time.Valid; infer_instance

/-- The six calendar and clock fields that the layout `20060102-150405` prints. -/
def Time.fields (t : Time) : Int × Nat × Nat × Nat × Nat × Nat :=
  (t.year, t.month, t.day, t.hour, t.minute, t.second)

/-- Days from 1970-01-01 to a date of the proleptic Gregorian calendar (the
usual era / year-of-era / day-of-year count with March as first month; the
divisions round down). -/
def daysFromCivil (year : Int) (month day : Nat) : Int :=
  let y : Int := if month ≤ 2 then year - 1 else year
  let era : Int := y / 400
  let yoe : Int := y - era * 400
  let mp : Int := if month ≤ 2 then (month : Int) + 9 else (month : Int) - 3
  let doy : Int := (153 * mp + 2) / 5 + (day : Int) - 1
  let doe : Int := yoe * 365 + yoe / 4 - yoe / 100 + doy
  era * 146097 + doe - 719468

/-- The instant of a clock reading, in seconds since 1970-01-01T00:00:00Z (what
`Time.Unix` returns): the wall-clock reading taken as UTC, less the zone
offset. -/
def Time.unix (t : Time) : Int :=
  daysFromCivil t.year t.month t.day * 86400 +
    (t.hour : Int) * 3600 + (t.minute : Int) * 60 + (t.second : Int) - t.offset

/-- Decimal digits of `u`, most significant first; `fuel` bounds the digit loop. -/
def decDigits : Nat → Nat → List Char
  | 0, _ => []
  | fuel + 1, u =>
    if u < 10 then [Nat.digitChar u]
    else decDigits fuel (u / 10) ++ [Nat.digitChar (u % 10)]

/-- Decimal rendering of an unsigned integer. -/
def utod (u : Nat) : List Char := decDigits (u + 1) u

/-- Value of a string of decimal digits. -/
def digitsVal (l : List Char) : Nat :=
  l.foldl (fun a c => 10 * a + (c.toNat - 48)) 0

/-- Go's `appendInt(b, x, width)`: a minus sign for a negative `x`, then the
decimal digits of `|x|` left-padded with zeros to at least `width` digits. -/
def appendInt (x : Int) (width : Nat) : List Char :=
  (if x < 0 then ['-'] else []) ++
    List.replicate (width - (utod x.natAbs).length) '0' ++ utod x.natAbs

/-- The layout chunks that `nextStdChunk` recognises in the two layouts used. -/
inductive Chunk where
  | lit (s : List Char)
  | stdLongYear
  | stdZeroMonth
  | stdZeroDay
  | stdHour
  | stdZeroMinute
  | stdZeroSecond
  | stdISO8601ColonTZ
deriving DecidableEq, Repr

/-- Rendering of the zone chunk `Z07:00`: `Z` for UTC, otherwise sign, hours,
a colon and minutes of the offset (integer division truncating toward zero). -/
def appendZone (offset : Int) : List Char :=
  if offset = 0 then ['Z']
  else
    let zone := Int.tdiv offset 60
    let sign := if zone < 0 then '-' else '+'
    let z := zone.natAbs
    sign :: (appendInt (z / 60 : Nat) 2 ++ [':'] ++ appendInt (z % 60 : Nat) 2)

/-- Rendering of one layout chunk. -/
def appendChunk (t : Time) : Chunk → List Char
  | .lit s => s
  | .stdLongYear => appendInt t.year 4
  | .stdZeroMonth => appendInt t.month 2
  | .stdZeroDay => appendInt t.day 2
  | .stdHour => appendInt t.hour 2
  | .stdZeroMinute => appendInt t.minute 2
  | .stdZeroSecond => appendInt t.second 2
  | .stdISO8601ColonTZ => appendZone t.offset

/-- The method `Time.Format` on a layout already split into chunks. -/
def Time.Format (t : Time) (layout : List Chunk) : String :=
  String.mk (layout.flatMap (appendChunk t))

/-- The layout `"20060102-150405"` of `main`. -/
def layoutStamp : List Chunk :=
  [.stdLongYear, .stdZeroMonth, .stdZeroDay, .lit ['-'],
   .stdHour, .stdZeroMinute, .stdZeroSecond]

/-- The layout `time.RFC3339`, `"2006-01-02T15:04:05Z07:00"`. -/
def RFC3339 : List Chunk :=
  [.stdLongYear, .lit ['-'], .stdZeroMonth, .lit ['-'], .stdZeroDay, .lit ['T'],
   .stdHour, .lit [':'], .stdZeroMinute, .lit [':'], .stdZeroSecond,
   .stdISO8601ColonTZ]

/-! ## Configuration constants -/

def mongoHost : String := "localhost"
def mongoPort : String := "27017"
def mongoDatabase : String := "go-mongodb"
def backupDir : String := "/tmp"

/-- Line 37: `timestamp := time.Now().Format("20060102-150405")`. -/
def timestamp (now : Time) : String := now.Format layoutStamp

/-- Line 38: `fmt.Sprintf("%s/mongodb-backup-%s.gz", backupDir, timestamp)`. -/
def backupFile (timestamp : String) : String :=
  backupDir ++ "/mongodb-backup-" ++ timestamp ++ ".gz"

/-- Line 59: `fmt.Sprintf("backup-%s.gz", timestamp)`. -/
def objectName (timestamp : String) : String :=
  "backup-" ++ timestamp ++ ".gz"

/-! ## The outside world and the trace of a run -/

/-- A Go `error` value, identified with its message. -/
abbrev GoError := String

/-- An argument of a log format string.  `float num den` stands for the
floating-point quotient `float64(num)/den`, kept symbolic. -/
inductive Arg where
  | str (s : String)
  | int (n : Nat)
  | float (num den : Nat)
deriving DecidableEq, Repr

/-- One effect of the script on the outside world, with the result it got. -/
inductive Event where
  | logFatal (msg : String)
  | logFatalf (format : String) (args : List Arg)
  | logPrintf (format : String) (args : List Arg)
  | logPrintln (msg : String)
  | combinedOutput (name : String) (args : List String) (output : String)
      (err : Option GoError)
  | osStat (path : String) (result : Except GoError Nat)
  | storageNewClient (err : Option GoError)
  | clientClose
  | osOpen (path : String) (err : Option GoError)
  | fileClose (path : String)
  | contextWithTimeout (minutes : Nat)
  | cancel
  | newWriter (bucket object : String)
  | setContentType (contentType : String)
  | setMetadata (metadata : List (String × String))
  | writeTo (path : String) (written : Nat) (err : Option GoError)
  | writerClose (err : Option GoError)
  | osRemove (path : String) (err : Option GoError)

/-- The answers of the environment to the calls the script makes. -/
structure World where
  /-- Value of an environment variable, `none` when it is unset. -/
  lookupEnv : String → Option String
  /-- The call `time.Now()` of `main`. -/
  now : Time
  /-- The call `time.Now()` of `uploadToGCS`. -/
  uploadNow : Time
  /-- Combined output and error of running a command with its arguments. -/
  combinedOutput : String → List String → String × Option GoError
  /-- The call `os.Stat`: the file size, or an error. -/
  osStat : String → Except GoError Nat
  /-- The call `storage.NewClient`. -/
  storageNewClient : Option GoError
  /-- The call `os.Open`: the bytes of the file, or an error. -/
  osOpen : String → Except GoError (List Nat)
  /-- Streaming the given bytes into the object writer: bytes written, error. -/
  writeTo : List Nat → Nat × Option GoError
  /-- Committing the object writer. -/
  writerClose : Option GoError
  /-- The call `os.Remove`. -/
  osRemove : String → Option GoError

/-- Trace and exit status of a run of the process. -/
structure Outcome where
  events : List Event
  exit : Nat

/-- The call `os.Getenv`: the value of the variable, empty when it is unset. -/
def osGetenv (w : World) (key : String) : String :=
  (w.lookupEnv key).getD ""

/-- getEnv gets environment variable with default value. -/
def getEnv (w : World) (key defaultValue : String) : String :=
  let value := osGetenv w key
  if value ≠ "" then value else defaultValue

/-- Argument list that `runMongoDump` hands to `exec.Command`. -/
def mongoDumpArgs (host port user password outputFile : String) : List String :=
  ["--host", host,
   "--port", port,
   "--username", user,
   "--password", password,
   "--authenticationDatabase", "admin",
   "--archive=" ++ outputFile,
   "--gzip"]

/-- runMongoDump executes mongodump command. -/
def runMongoDump (w : World) (host port user password outputFile : String) :
    List Event × Option GoError :=
  let args := mongoDumpArgs host port user password outputFile
  let r := w.combinedOutput "mongodump" args
  match r.2 with
  | some err =>
    ([.combinedOutput "mongodump" args r.1 (some err)],
      some ("mongodump error: " ++ err ++ ", output: " ++ r.1))
  | none =>
    ([.combinedOutput "mongodump" args r.1 none,
      .logPrintf "mongodump output: %s" [.str r.1]], none)

/-- Metadata that `uploadToGCS` attaches to the object writer. -/
def uploadMetadata (now : Time) : List (String × String) :=
  [("created", now.Format RFC3339), ("source", "mongodb-backup-script")]

/-- uploadToGCS uploads a file to Google Cloud Storage.  The deferred calls
(`cancel`, `f.Close`, `client.Close`) are listed at each return, last
deferred first. -/
def uploadToGCS (w : World) (localFile bucketName objectName : String) :
    List Event × Option GoError :=
  match w.storageNewClient with
  | some err =>
    ([.storageNewClient (some err)], some ("failed to create storage client: " ++ err))
  | none =>
    match w.osOpen localFile with
    | .error err =>
      ([.storageNewClient none, .osOpen localFile (some err), .clientClose],
        some ("failed to open file: " ++ err))
    | .ok content =>
      let setup : List Event :=
        [.storageNewClient none, .osOpen localFile none, .contextWithTimeout 10,
         .newWriter bucketName objectName,
         .setContentType "application/gzip",
         .setMetadata (uploadMetadata w.uploadNow)]
      let deferred : List Event := [.cancel, .fileClose localFile, .clientClose]
      let r := w.writeTo content
      match r.2 with
      | some err =>
        (setup ++ [.writeTo localFile r.1 (some err)] ++ deferred,
          some ("failed to write to GCS: " ++ err))
      | none =>
        match w.writerClose with
        | some err =>
          (setup ++ [.writeTo localFile r.1 none, .writerClose (some err)] ++ deferred,
            some ("failed to close GCS writer: " ++ err))
        | none =>
          (setup ++ [.writeTo localFile r.1 none, .writerClose none,
              .logPrintf "Uploaded %d bytes to GCS" [.int r.1]] ++ deferred, none)

/-- The process entry point.  `log.Fatal` and `log.Fatalf` print and end the
process with status 1; returning from `main` ends it with status 0. -/
def main (w : World) : Outcome :=
  let mongoUser := getEnv w "MONGO_USER" "admin"
  let mongoPassword := getEnv w "MONGO_PASSWORD" ""
  let bucketName := getEnv w "BACKUP_BUCKET" ""
  if mongoPassword = "" then
    ⟨[.logFatal "MONGO_PASSWORD environment variable is required"], 1⟩
  else if bucketName = "" then
    ⟨[.logFatal "BACKUP_BUCKET environment variable is required"], 1⟩
  else
    let timestamp := timestamp w.now
    let backupFile := backupFile timestamp
    let started : List Event :=
      [.logPrintf "Starting MongoDB backup to %s" [.str backupFile]]
    let dump := runMongoDump w mongoHost mongoPort mongoUser mongoPassword backupFile
    match dump.2 with
    | some err =>
      ⟨started ++ dump.1 ++ [.logFatalf "Backup failed: %v" [.str err]], 1⟩
    | none =>
      let created : List Event :=
        [.logPrintf "Backup created successfully: %s" [.str backupFile]]
      let sized : List Event :=
        match w.osStat backupFile with
        | .error err =>
          [.osStat backupFile (.error err),
           .logPrintf "Warning: Could not get file size: %v" [.str err]]
        | .ok size =>
          [.osStat backupFile (.ok size),
           .logPrintf "Backup size: %d bytes (%.2f MB)"
             [.int size, .float size (1024 * 1024)]]
      let uploading : List Event :=
        [.logPrintf "Uploading backup to GCS bucket: %s" [.str bucketName]]
      let objectName := objectName timestamp
      let upload := uploadToGCS w backupFile bucketName objectName
      match upload.2 with
      | some err =>
        ⟨started ++ dump.1 ++ created ++ sized ++ uploading ++ upload.1 ++
          [.logFatalf "Upload failed: %v" [.str err]], 1⟩
      | none =>
        let uploaded : List Event :=
          [.logPrintf "Backup uploaded successfully to gs://%s/%s"
            [.str bucketName, .str objectName]]
        let removed : List Event :=
          match w.osRemove backupFile with
          | some err =>
            [.osRemove backupFile (some err),
             .logPrintf "Warning: Could not remove local backup file: %v" [.str err]]
          | none =>
            [.osRemove backupFile none, .logPrintf "Local backup file removed" []]
        ⟨started ++ dump.1 ++ created ++ sized ++ uploading ++ upload.1 ++ uploaded ++
          removed ++ [.logPrintln "Backup completed successfully!"], 0⟩

/-! ## Observations on traces -/

/-- The event is an invocation of the dump producer. -/
def Event.isDump : Event → Bool
  | .combinedOutput _ _ _ _ => true
  | _ => false

/-- The event is issued by the upload step (`uploadToGCS`). -/
def Event.isUpload : Event → Bool
  | .storageNewClient _ => true
  | .clientClose => true
  | .osOpen _ _ => true
  | .fileClose _ => true
  | .contextWithTimeout _ => true
  | .cancel => true
  | .newWriter _ _ => true
  | .setContentType _ => true
  | .setMetadata _ => true
  | .writeTo _ _ _ => true
  | .writerClose _ => true
  | _ => false

/-- The event is a deletion of a file. -/
def Event.isRemove : Event → Bool
  | .osRemove _ _ => true
  | _ => false

/-- The event is a log line. -/
def Event.isLog : Event → Bool
  | .logFatal _ => true
  | .logFatalf _ _ => true
  | .logPrintf _ _ => true
  | .logPrintln _ => true
  | _ => false

/-- The variable is absent: unset, or set to the empty string. -/
def Absent (w : World) (key : String) : Prop :=
  w.lookupEnv key = none ∨ w.lookupEnv key = some ""

instance (w : World) (key : String) : Decidable (Absent w key) := by
  unfold Absent; infer_instance

/-- Result of the call of `runMongoDump` that `main` makes. -/
def dumpResult (w : World) : Option GoError :=
  (runMongoDump w mongoHost mongoPort (getEnv w "MONGO_USER" "admin")
    (getEnv w "MONGO_PASSWORD" "") (backupFile (timestamp w.now))).2

/-- Result of the call of `uploadToGCS` that `main` makes. -/
def uploadResult (w : World) : Option GoError :=
  (uploadToGCS w (backupFile (timestamp w.now)) (getEnv w "BACKUP_BUCKET" "")
    (objectName (timestamp w.now))).2

/-! ## Sample worlds -/

/-- An environment with a password and a bucket, and no user. -/
def sampleEnv : String → Option String := fun key =>
  if key = "MONGO_PASSWORD" then some "s3cret"
  else if key = "BACKUP_BUCKET" then some "backups"
  else none

/-- A world in which every call succeeds; the artifact is a zero-byte file. -/
def worldOK : World where
  lookupEnv := sampleEnv
  now := ⟨2024, 1, 2, 3, 4, 5, 0⟩
  uploadNow := ⟨2024, 1, 2, 3, 4, 9, 0⟩
  combinedOutput := fun _ _ => ("done", none)
  osStat := fun _ => .ok 0
  storageNewClient := none
  osOpen := fun _ => .ok []
  writeTo := fun content => (content.length, none)
  writerClose := none
  osRemove := fun _ => none

/-- The world `w` with the answers of `os.Stat` and `os.Remove` replaced. -/
def World.withStatRemove (w : World) (stat : String → Except GoError Nat)
    (remove : String → Option GoError) : World :=
  ⟨w.lookupEnv, w.now, w.uploadNow, w.combinedOutput, stat, w.storageNewClient,
    w.osOpen, w.writeTo, w.writerClose, remove⟩

/-- A world in which `mongodump` fails. -/
def worldDumpFails : World :=
  ⟨sampleEnv, worldOK.now, worldOK.uploadNow, fun _ _ => ("auth failed", some "exit status 1"),
    worldOK.osStat, none, worldOK.osOpen, worldOK.writeTo, none, worldOK.osRemove⟩

/-- A world in which committing the object writer fails. -/
def worldCommitFails : World :=
  ⟨sampleEnv, worldOK.now, worldOK.uploadNow, worldOK.combinedOutput,
    worldOK.osStat, none, worldOK.osOpen, worldOK.writeTo, some "deadline exceeded",
    worldOK.osRemove⟩

/-- A world without a password. -/
def worldNoPassword : World :=
  ⟨fun key => if key = "BACKUP_BUCKET" then some "backups" else none,
    worldOK.now, worldOK.uploadNow, worldOK.combinedOutput,
    worldOK.osStat, none, worldOK.osOpen, worldOK.writeTo, none, worldOK.osRemove⟩

/-- The world `worldOK` started one second later. -/
def worldLater : World :=
  ⟨sampleEnv, ⟨2024, 1, 2, 3, 4, 6, 0⟩, worldOK.uploadNow, worldOK.combinedOutput,
    worldOK.osStat, none, worldOK.osOpen, worldOK.writeTo, none, worldOK.osRemove⟩

/-- A world in which everything succeeds except the removal of the artifact. -/
def worldRemoveFails : World :=
  ⟨sampleEnv, worldOK.now, worldOK.uploadNow, worldOK.combinedOutput,
    worldOK.osStat, none, worldOK.osOpen, worldOK.writeTo, none,
    fun _ => some "permission denied"⟩

/-- A world in which the copy into the object writer fails. -/
def worldWriteFails : World :=
  ⟨sampleEnv, worldOK.now, worldOK.uploadNow, worldOK.combinedOutput,
    worldOK.osStat, none, worldOK.osOpen, fun _ => (0, some "connection reset"), none,
    worldOK.osRemove⟩

/-- A run at 01:30:00 on 2024-11-03 in a zone four hours west of UTC (US
Eastern daylight time, before the clocks go back). -/
def worldEDT : World :=
  ⟨sampleEnv, ⟨2024, 11, 3, 1, 30, 0, -14400⟩, worldOK.uploadNow, worldOK.combinedOutput,
    worldOK.osStat, none, worldOK.osOpen, worldOK.writeTo, none, worldOK.osRemove⟩

/-- A run at 01:30:00 on 2024-11-03 in a zone five hours west of UTC (US
Eastern standard time, after the clocks went back): one hour after `worldEDT`. -/
def worldEST : World :=
  ⟨sampleEnv, ⟨2024, 11, 3, 1, 30, 0, -18000⟩, worldOK.uploadNow, worldOK.combinedOutput,
    worldOK.osStat, none, worldOK.osOpen, worldOK.writeTo, none, worldOK.osRemove⟩

/-! ## Handles held by the process -/

/-- A file or network handle that the upload step can hold. -/
inductive Handle where
  | client
  | file (path : String)
  | writer (bucket object : String)
deriving DecidableEq, Repr

/-- The handle is an object writer stream. -/
def Handle.isWriter : Handle → Bool
  | .writer _ _ => true
  | _ => false

/-- Effect of one event on the handles held.  A successful
`storage.NewClient`, a successful `os.Open` and `NewWriter` each open a
handle; each handle is released by its own close call and by nothing else:
`client.Close`, `f.Close`, `wc.Close`. -/
def holdStep (held : List Handle) : Event → List Handle
  | .storageNewClient none => .client :: held
  | .clientClose => held.erase .client
  | .osOpen path none => .file path :: held
  | .fileClose path => held.erase (.file path)
  | .newWriter bucket object => .writer bucket object :: held
  | .writerClose _ => held.filter (fun h => !h.isWriter)
  | _ => held

/-- Handles held after a trace, starting with none. -/
def heldAfter (events : List Event) : List Handle :=
  events.foldl holdStep []

/-! ## Helper lemmas on configuration -/

theorem getEnv_absent (w : World) (key d : String) (h : Absent w key) :
    getEnv w key d = d := by
  rcases h with h | h <;> simp [getEnv, osGetenv, h]

theorem getEnv_present (w : World) (key : String) (h : ¬ Absent w key) :
    getEnv w key "" ≠ "" := by
  unfold Absent at h
  unfold getEnv osGetenv
  cases hk : w.lookupEnv key with
  | none => simp [hk] at h
  | some v =>
    have hv : v ≠ "" := by
      intro hv; apply h; right; rw [hk, hv]
    simp [hv]

theorem getEnv_eq_empty_iff (w : World) (key : String) :
    getEnv w key "" = "" ↔ Absent w key := by
  constructor
  · intro h
    by_contra hc
    exact getEnv_present w key hc h
  · exact getEnv_absent w key ""

/-- The exit status is zero exactly on the fully successful path. -/
theorem main_exit_zero_iff (w : World) :
    (main w).exit = 0 ↔
      (¬ Absent w "MONGO_PASSWORD" ∧ ¬ Absent w "BACKUP_BUCKET" ∧
        dumpResult w = none ∧ uploadResult w = none) := by
  rw [← getEnv_eq_empty_iff, ← getEnv_eq_empty_iff]
  unfold dumpResult uploadResult main
  by_cases hp : getEnv w "MONGO_PASSWORD" "" = ""
  · simp [hp]
  by_cases hb : getEnv w "BACKUP_BUCKET" "" = ""
  · simp [hp, hb]
  simp only [hp, hb, if_false, not_false_eq_true, true_and]
  split
  · rename_i err h1
    simp [h1]
  · rename_i h1
    simp only [h1, true_and]
    split
    · rename_i err h2
      simp [h2]
    · rename_i h2
      simp [h2]

theorem dumpResult_eq (w : World) :
    dumpResult w =
      (w.combinedOutput "mongodump"
        (mongoDumpArgs mongoHost mongoPort (getEnv w "MONGO_USER" "admin")
          (getEnv w "MONGO_PASSWORD" "") (backupFile (timestamp w.now)))).2.map
        (fun err => "mongodump error: " ++ err ++ ", output: " ++
          (w.combinedOutput "mongodump"
            (mongoDumpArgs mongoHost mongoPort (getEnv w "MONGO_USER" "admin")
              (getEnv w "MONGO_PASSWORD" "") (backupFile (timestamp w.now)))).1) := by
  unfold dumpResult runMongoDump
  simp only
  split <;> rename_i h <;> simp [h]

theorem uploadToGCS_isUpload (w : World) (f b o : String) :
    ∀ e ∈ (uploadToGCS w f b o).1, e.isUpload = true ∨ e.isLog = true := by
  unfold uploadToGCS
  intro e he
  split at he
  · simp at he; subst he; simp [Event.isUpload]
  split at he
  · simp at he; rcases he with he | he | he <;> subst he <;> simp [Event.isUpload]
  simp only at he
  split at he
  · simp at he
    rcases he with he | he | he | he | he | he | he | he | he | he <;> subst he <;>
      simp [Event.isUpload]
  split at he
  · simp at he
    rcases he with he | he | he | he | he | he | he | he | he | he | he <;> subst he <;>
      simp [Event.isUpload]
  · simp at he
    rcases he with he | he | he | he | he | he | he | he | he | he | he | he <;> subst he <;>
      simp [Event.isUpload, Event.isLog]

theorem uploadToGCS_not_remove (w : World) (f b o : String) :
    ∀ e ∈ (uploadToGCS w f b o).1, e.isRemove = false ∧ e.isDump = false := by
  intro e he
  rcases uploadToGCS_isUpload w f b o e he with h | h <;>
    cases e <;> simp_all [Event.isUpload, Event.isLog, Event.isRemove, Event.isDump]

theorem runMongoDump_events (w : World) (h p u pw f : String) :
    ∀ e ∈ (runMongoDump w h p u pw f).1,
      e.isUpload = false ∧ e.isRemove = false := by
  unfold runMongoDump
  intro e he
  simp only at he
  split at he
  · simp at he; subst he; simp [Event.isUpload, Event.isRemove]
  · simp at he; rcases he with he | he <;> subst he <;> simp [Event.isUpload, Event.isRemove]

/-- C1. When MONGO_PASSWORD or BACKUP_BUCKET is absent (unset or empty), `main`
ends with exit status 1 after a single fatal log line: its trace holds no
mongodump call, no upload event and no file deletion. -/
theorem main_missing_config (w : World)
    (h : Absent w "MONGO_PASSWORD" ∨ Absent w "BACKUP_BUCKET") :
    (main w).exit = 1 ∧ (∃ msg, (main w).events = [.logFatal msg]) ∧
      ∀ e ∈ (main w).events,
        e.isDump = false ∧ e.isUpload = false ∧ e.isRemove = false := by
  have key : (main w).exit = 1 ∧ ∃ msg, (main w).events = [.logFatal msg] := by
    unfold main
    by_cases hp : getEnv w "MONGO_PASSWORD" "" = ""
    · simp [hp]
    · rcases h with h | h
      · exact absurd (getEnv_absent w _ _ h) hp
      · simp [hp, getEnv_absent w _ _ h]
  obtain ⟨h1, msg, h2⟩ := key
  refine ⟨h1, ⟨msg, h2⟩, ?_⟩
  intro e he
  rw [h2] at he
  simp at he
  subst he
  simp [Event.isDump, Event.isUpload, Event.isRemove]

theorem main_missing_config_witness :
    (Absent worldNoPassword "MONGO_PASSWORD" ∨ Absent worldNoPassword "BACKUP_BUCKET") ∧
      (main worldNoPassword).exit = 1 :=
  ⟨Or.inl (Or.inl (by decide)),
    (main_missing_config worldNoPassword (Or.inl (Or.inl (by decide)))).1⟩

/-- C2. With both required variables present, when `runMongoDump` returns an
error `main` ends with exit status 1 and its trace holds no event of the
upload step (and no file deletion). -/
theorem main_dump_failure (w : World)
    (hp : ¬ Absent w "MONGO_PASSWORD") (hb : ¬ Absent w "BACKUP_BUCKET")
    (hd : dumpResult w ≠ none) :
    (main w).exit = 1 ∧
      ∀ e ∈ (main w).events, e.isUpload = false ∧ e.isRemove = false := by
  have hp1 := getEnv_present w _ hp
  have hb1 := getEnv_present w _ hb
  unfold dumpResult at hd
  unfold main
  simp only [hp1, hb1, if_false]
  split
  · rename_i err h1
    refine ⟨rfl, ?_⟩
    intro e he
    simp only [List.mem_append, List.mem_singleton] at he
    rcases he with (he | he) | he
    · subst he; simp [Event.isUpload, Event.isRemove]
    · exact runMongoDump_events _ _ _ _ _ _ e he
    · subst he; simp [Event.isUpload, Event.isRemove]
  · rename_i h1
    exact absurd h1 hd

theorem main_dump_failure_witness :
    dumpResult worldDumpFails ≠ none ∧ (main worldDumpFails).exit = 1 :=
  ⟨by decide, (main_dump_failure worldDumpFails (by decide) (by decide) (by decide)).1⟩

theorem main_exit_le_one (w : World) : (main w).exit = 0 ∨ (main w).exit = 1 := by
  unfold main
  by_cases hp : getEnv w "MONGO_PASSWORD" "" = ""
  · simp [hp]
  by_cases hb : getEnv w "BACKUP_BUCKET" "" = ""
  · simp [hp, hb]
  simp only [hp, hb, if_false]
  split
  · simp
  split <;> simp

theorem uploadToGCS_fails (w : World) (f b o : String)
    (hu : w.storageNewClient ≠ none ∨ (∃ err, w.osOpen f = .error err) ∨
      (∃ content, w.osOpen f = .ok content ∧ (w.writeTo content).2 ≠ none) ∨
      w.writerClose ≠ none) :
    (uploadToGCS w f b o).2 ≠ none := by
  unfold uploadToGCS
  cases hc : w.storageNewClient with
  | some e => simp
  | none =>
    cases hopen : w.osOpen f with
    | error e => simp
    | ok content =>
      simp only
      cases hw : (w.writeTo content).2 with
      | some e => simp
      | none =>
        cases hcl : w.writerClose with
        | some e => simp
        | none =>
          rcases hu with h | ⟨err, h⟩ | ⟨c, h, h2⟩ | h
          · exact absurd hc h
          · rw [hopen] at h; cases h
          · rw [hopen] at h
            cases h
            exact absurd hw h2
          · exact absurd hcl h

/-- C3. With both required variables present and a successful dump, when the
upload fails at any point (creating the storage client, opening the local
file, writing to the object writer, committing the writer) `main` ends with
exit status 1 and its trace holds no call of `os.Remove`. -/
theorem main_upload_failure (w : World)
    (hp : ¬ Absent w "MONGO_PASSWORD") (hb : ¬ Absent w "BACKUP_BUCKET")
    (hd : dumpResult w = none)
    (hu : w.storageNewClient ≠ none ∨
      (∃ err, w.osOpen (backupFile (timestamp w.now)) = .error err) ∨
      (∃ content, w.osOpen (backupFile (timestamp w.now)) = .ok content ∧
        (w.writeTo content).2 ≠ none) ∨
      w.writerClose ≠ none) :
    (main w).exit = 1 ∧ ∀ e ∈ (main w).events, e.isRemove = false := by
  have hp1 := getEnv_present w _ hp
  have hb1 := getEnv_present w _ hb
  have hu1 := uploadToGCS_fails w (backupFile (timestamp w.now))
    (getEnv w "BACKUP_BUCKET" "") (objectName (timestamp w.now)) hu
  unfold dumpResult at hd
  unfold main
  simp only [hp1, hb1, if_false, hd]
  split
  · rename_i err h1
    refine ⟨rfl, ?_⟩
    intro e he
    simp only [List.mem_append, List.mem_singleton] at he
    rcases he with (((((he | he) | he) | he) | he) | he) | he
    · subst he; rfl
    · exact (runMongoDump_events _ _ _ _ _ _ e he).2
    · subst he; rfl
    · split at he <;> simp at he <;> rcases he with he | he <;> subst he <;> rfl
    · subst he; rfl
    · exact (uploadToGCS_not_remove _ _ _ _ e he).1
    · subst he; rfl
  · rename_i h1
    exact absurd h1 hu1

theorem main_upload_failure_witness :
    worldCommitFails.writerClose ≠ none ∧ (main worldCommitFails).exit = 1 ∧
      ∀ e ∈ (main worldCommitFails).events, e.isRemove = false :=
  ⟨by decide,
    main_upload_failure worldCommitFails (by decide) (by decide) (by decide)
      (Or.inr (Or.inr (Or.inr (by decide))))⟩

/-- C5. The exit status of `main` is zero exactly when both required variables
are present, the dump succeeds and the upload succeeds; replacing the answers
of `os.Stat` and `os.Remove` by any others leaves the exit status unchanged;
and after a successful dump the upload step is entered whatever `os.Stat`
answered. -/
theorem main_exit_status (w : World) :
    ((main w).exit = 0 ↔
      (¬ Absent w "MONGO_PASSWORD" ∧ ¬ Absent w "BACKUP_BUCKET" ∧
        dumpResult w = none ∧ uploadResult w = none)) ∧
    (∀ stat remove, (main (w.withStatRemove stat remove)).exit = (main w).exit) ∧
    (¬ Absent w "MONGO_PASSWORD" → ¬ Absent w "BACKUP_BUCKET" → dumpResult w = none →
      Event.storageNewClient w.storageNewClient ∈ (main w).events) := by
  refine ⟨main_exit_zero_iff w, ?_, ?_⟩
  · intro stat remove
    have h1 := main_exit_zero_iff w
    have h2 := main_exit_zero_iff (w.withStatRemove stat remove)
    have e : ((main (w.withStatRemove stat remove)).exit = 0 ↔ (main w).exit = 0) := by
      rw [h1, h2]; rfl
    rcases main_exit_le_one w with a | a <;>
      rcases main_exit_le_one (w.withStatRemove stat remove) with b | b
    · rw [a, b]
    · have := e.mpr a; omega
    · have := e.mp b; omega
    · rw [a, b]
  · intro hp hb hd
    have hp1 := getEnv_present w _ hp
    have hb1 := getEnv_present w _ hb
    have hmem : ∀ f b o, Event.storageNewClient w.storageNewClient ∈
        (uploadToGCS w f b o).1 := by
      intro f b o
      unfold uploadToGCS
      split
      · rename_i h; simp [h]
      rename_i h
      split
      · simp [h]
      simp only
      split
      · simp [h]
      split <;> simp [h]
    unfold dumpResult at hd
    unfold main
    simp only [hp1, hb1, if_false, hd]
    split <;> simp [hmem]

theorem backupFile_eq (ts : String) :
    backupFile ts = "/tmp/mongodb-backup-" ++ ts ++ ".gz" := by
  unfold backupFile backupDir
  have h : ("/tmp" : String) ++ "/mongodb-backup-" = "/tmp/mongodb-backup-" := by decide
  rw [← h]

theorem getEnv_user (w : World) :
    getEnv w "MONGO_USER" "admin" =
      (match w.lookupEnv "MONGO_USER" with
        | some v => if v = "" then "admin" else v
        | none => "admin") := by
  unfold getEnv osGetenv
  cases h : w.lookupEnv "MONGO_USER" with
  | none => simp
  | some v => by_cases hv : v = "" <;> simp [hv]

theorem getEnv_some (w : World) (key v : String) (h : w.lookupEnv key = some v) :
    getEnv w key "" = v := by
  unfold getEnv osGetenv
  by_cases hv : v = "" <;> simp [h, hv]

theorem uploadToGCS_filter_isDump (w : World) (f b o : String) :
    (uploadToGCS w f b o).1.filter Event.isDump = [] := by
  rw [List.filter_eq_nil_iff]
  intro e he
  simp [(uploadToGCS_not_remove w f b o e he).2]

/-- C9. In every run that reaches the dump step (both required variables
present), the trace holds exactly one invocation of the dump producer: the
command `mongodump` with the host, port, user, password,
authentication-database, archive and gzip arguments in that order, where the
password is the value of MONGO_PASSWORD, the archive path is the timestamped
local artifact path and the user is the value of MONGO_USER when set and
non-empty and `admin` otherwise. -/
theorem main_dump_invocation (w : World) (p bucket : String)
    (hp : w.lookupEnv "MONGO_PASSWORD" = some p) (hp0 : p ≠ "")
    (hb : w.lookupEnv "BACKUP_BUCKET" = some bucket) (hb0 : bucket ≠ "") :
    ∃ output err,
      (main w).events.filter Event.isDump =
        [.combinedOutput "mongodump"
          ["--host", "localhost", "--port", "27017",
           "--username",
             (match w.lookupEnv "MONGO_USER" with
              | some v => if v = "" then "admin" else v
              | none => "admin"),
           "--password", p,
           "--authenticationDatabase", "admin",
           "--archive=" ++ ("/tmp/mongodb-backup-" ++ timestamp w.now ++ ".gz"),
           "--gzip"] output err] := by
  have hp1 := getEnv_some w _ _ hp
  have hb1 := getEnv_some w _ _ hb
  rw [← getEnv_user, ← backupFile_eq]
  refine ⟨(w.combinedOutput "mongodump" (mongoDumpArgs mongoHost mongoPort
      (getEnv w "MONGO_USER" "admin") p (backupFile (timestamp w.now)))).1,
    (w.combinedOutput "mongodump" (mongoDumpArgs mongoHost mongoPort
      (getEnv w "MONGO_USER" "admin") p (backupFile (timestamp w.now)))).2, ?_⟩
  unfold main
  simp only [hp1, hb1, hp0, hb0, if_false]
  have hdump : (runMongoDump w mongoHost mongoPort (getEnv w "MONGO_USER" "admin") p
      (backupFile (timestamp w.now))).1.filter Event.isDump =
      [.combinedOutput "mongodump" (mongoDumpArgs mongoHost mongoPort
        (getEnv w "MONGO_USER" "admin") p (backupFile (timestamp w.now)))
        (w.combinedOutput "mongodump" (mongoDumpArgs mongoHost mongoPort
          (getEnv w "MONGO_USER" "admin") p (backupFile (timestamp w.now)))).1
        (w.combinedOutput "mongodump" (mongoDumpArgs mongoHost mongoPort
          (getEnv w "MONGO_USER" "admin") p (backupFile (timestamp w.now)))).2] := by
    unfold runMongoDump
    simp only
    split <;> rename_i h <;> simp [h, Event.isDump]
  have hargs : mongoDumpArgs mongoHost mongoPort (getEnv w "MONGO_USER" "admin") p
      (backupFile (timestamp w.now)) =
      ["--host", "localhost", "--port", "27017", "--username",
        getEnv w "MONGO_USER" "admin", "--password", p,
        "--authenticationDatabase", "admin",
        "--archive=" ++ backupFile (timestamp w.now), "--gzip"] := rfl
  rw [hargs] at hdump
  split
  · simp only [List.filter_append, hdump]
    simp [Event.isDump, hargs]
  · split
    · simp only [List.filter_append, hdump, uploadToGCS_filter_isDump]
      split <;> simp [Event.isDump, hargs]
    · simp only [List.filter_append, hdump, uploadToGCS_filter_isDump]
      split <;> split <;> simp [Event.isDump, hargs]

theorem main_dump_invocation_witness :
    ∃ output err,
      (main worldOK).events.filter Event.isDump =
        [.combinedOutput "mongodump"
          ["--host", "localhost", "--port", "27017",
           "--username", "admin",
           "--password", "s3cret",
           "--authenticationDatabase", "admin",
           "--archive=" ++ ("/tmp/mongodb-backup-" ++ timestamp worldOK.now ++ ".gz"),
           "--gzip"] output err] :=
  main_dump_invocation worldOK "s3cret" "backups" (by decide) (by decide) (by decide)
    (by decide)

theorem uploadToGCS_success (w : World) (f b o : String)
    (h : (uploadToGCS w f b o).2 = none) :
    ∃ written,
      (uploadToGCS w f b o).1 =
        [.storageNewClient none, .osOpen f none, .contextWithTimeout 10,
         .newWriter b o, .setContentType "application/gzip",
         .setMetadata (uploadMetadata w.uploadNow),
         .writeTo f written none, .writerClose none,
         .logPrintf "Uploaded %d bytes to GCS" [.int written],
         .cancel, .fileClose f, .clientClose] := by
  unfold uploadToGCS at h ⊢
  cases hc : w.storageNewClient with
  | some e => simp [hc] at h
  | none =>
    cases hopen : w.osOpen f with
    | error e => simp [hc, hopen] at h
    | ok content =>
      simp only [hc, hopen] at h ⊢
      cases hw : (w.writeTo content).2 with
      | some e => simp [hw] at h
      | none =>
        cases hcl : w.writerClose with
        | some e => simp [hw, hcl] at h
        | none => exact ⟨(w.writeTo content).1, by simp⟩

theorem runMongoDump_success (w : World) (h p u pw f : String)
    (hd : (runMongoDump w h p u pw f).2 = none) :
    ∃ output,
      (runMongoDump w h p u pw f).1 =
        [.combinedOutput "mongodump" (mongoDumpArgs h p u pw f) output none,
         .logPrintf "mongodump output: %s" [.str output]] := by
  unfold runMongoDump at hd ⊢
  simp only at hd ⊢
  cases hr : (w.combinedOutput "mongodump" (mongoDumpArgs h p u pw f)).2 with
  | some e => simp [hr] at hd
  | none => exact ⟨_, rfl⟩

/-- The removal events of a run are the single call of `os.Remove` on the
artifact path when the run reaches the clean-up step. -/
theorem main_remove_events (w : World) (p0 : String) (r : Option GoError)
    (h : Event.osRemove p0 r ∈ (main w).events) :
    p0 = backupFile (timestamp w.now) ∧ r = w.osRemove (backupFile (timestamp w.now)) := by
  unfold main at h
  by_cases hp : getEnv w "MONGO_PASSWORD" "" = ""
  · simp [hp] at h
  by_cases hb : getEnv w "BACKUP_BUCKET" "" = ""
  · simp [hp, hb] at h
  simp only [hp, hb, if_false] at h
  have hdump : ∀ h0 p1 u pw f, Event.osRemove p0 r ∉ (runMongoDump w h0 p1 u pw f).1 := by
    intro h0 p1 u pw f hm
    have := (runMongoDump_events w h0 p1 u pw f _ hm).2
    simp [Event.isRemove] at this
  have hup : ∀ f b o, Event.osRemove p0 r ∉ (uploadToGCS w f b o).1 := by
    intro f b o hm
    have := (uploadToGCS_not_remove w f b o _ hm).1
    simp [Event.isRemove] at this
  have hsized : Event.osRemove p0 r ∉
      (match w.osStat (backupFile (timestamp w.now)) with
        | .error err =>
          [Event.osStat (backupFile (timestamp w.now)) (.error err),
           Event.logPrintf "Warning: Could not get file size: %v" [.str err]]
        | .ok size =>
          [Event.osStat (backupFile (timestamp w.now)) (.ok size),
           Event.logPrintf "Backup size: %d bytes (%.2f MB)"
             [.int size, .float size (1024 * 1024)]]) := by
    split <;> simp
  split at h
  · simp [hdump] at h
  · split at h
    · simp [hdump, hup, hsized] at h
    · simp only [List.mem_append, List.mem_singleton, List.mem_cons, List.not_mem_nil,
        hdump, hup, hsized, false_or, or_false, reduceCtorEq] at h
      cases hr : w.osRemove (backupFile (timestamp w.now)) with
      | none =>
        simp only [hr, List.mem_cons, List.mem_singleton, List.not_mem_nil, or_false,
          reduceCtorEq, Event.osRemove.injEq] at h
        exact h
      | some e =>
        simp only [hr, List.mem_cons, List.mem_singleton, List.not_mem_nil, or_false,
          reduceCtorEq, Event.osRemove.injEq] at h
        exact h

/-- C4 (as stated, refuted). In `worldRemoveFails` both required variables
are present and the dump and the upload succeed, the run exits with status 0,
and yet the local artifact is not deleted: the one call of `os.Remove` on
`/tmp/mongodb-backup-20240102-030405.gz` returns an error, and the trace holds
no successful removal. -/
theorem main_success_artifact_kept :
    worldRemoveFails.lookupEnv "MONGO_PASSWORD" = some "s3cret" ∧
    worldRemoveFails.lookupEnv "BACKUP_BUCKET" = some "backups" ∧
    dumpResult worldRemoveFails = none ∧ uploadResult worldRemoveFails = none ∧
    (main worldRemoveFails).exit = 0 ∧
    Event.osRemove "/tmp/mongodb-backup-20240102-030405.gz" (some "permission denied") ∈
      (main worldRemoveFails).events ∧
    ¬ ∃ path, Event.osRemove path none ∈ (main worldRemoveFails).events := by
  refine ⟨rfl, rfl, rfl, rfl, rfl, ?_, ?_⟩
  · have h : Event.osRemove "/tmp/mongodb-backup-20240102-030405.gz"
        (some "permission denied") ∈
        (main worldRemoveFails).events.filter Event.isRemove := by
      have e : (main worldRemoveFails).events.filter Event.isRemove =
          [.osRemove "/tmp/mongodb-backup-20240102-030405.gz" (some "permission denied")] :=
        rfl
      rw [e]
      simp
    exact (List.mem_filter.1 h).1
  · rintro ⟨path, hmem⟩
    have h := (main_remove_events worldRemoveFails path none hmem).2
    exact absurd h (by decide)

/-- C4 (amended). With both required variables present and a successful dump
and upload, `main` exits with status 0 and the effects of the run, log lines
aside, are in order: the mongodump call whose archive argument is the local
path `/tmp/mongodb-backup-<ts>.gz`, the stat of that path, the upload (client,
open of the same path, writer for the object `backup-<ts>.gz` of the bucket,
content type, metadata, copy, commit, and the deferred releases), and last
one call of `os.Remove` on the same path; `<ts>` is the one timestamp string
of the run.  The artifact is deleted exactly when that call succeeds. -/
theorem main_success (w : World) (p bucket : String)
    (hp : w.lookupEnv "MONGO_PASSWORD" = some p) (hp0 : p ≠ "")
    (hb : w.lookupEnv "BACKUP_BUCKET" = some bucket) (hb0 : bucket ≠ "")
    (hd : dumpResult w = none) (hu : uploadResult w = none) :
    (main w).exit = 0 ∧
    (∃ output written,
      (main w).events.filter (fun e => !e.isLog) =
        [.combinedOutput "mongodump"
          ["--host", "localhost", "--port", "27017",
           "--username",
             (match w.lookupEnv "MONGO_USER" with
              | some v => if v = "" then "admin" else v
              | none => "admin"),
           "--password", p,
           "--authenticationDatabase", "admin",
           "--archive=" ++ ("/tmp/mongodb-backup-" ++ timestamp w.now ++ ".gz"),
           "--gzip"] output none,
         .osStat ("/tmp/mongodb-backup-" ++ timestamp w.now ++ ".gz")
           (w.osStat ("/tmp/mongodb-backup-" ++ timestamp w.now ++ ".gz")),
         .storageNewClient none,
         .osOpen ("/tmp/mongodb-backup-" ++ timestamp w.now ++ ".gz") none,
         .contextWithTimeout 10,
         .newWriter bucket ("backup-" ++ timestamp w.now ++ ".gz"),
         .setContentType "application/gzip",
         .setMetadata [("created", w.uploadNow.Format RFC3339),
                       ("source", "mongodb-backup-script")],
         .writeTo ("/tmp/mongodb-backup-" ++ timestamp w.now ++ ".gz") written none,
         .writerClose none,
         .cancel,
         .fileClose ("/tmp/mongodb-backup-" ++ timestamp w.now ++ ".gz"),
         .clientClose,
         .osRemove ("/tmp/mongodb-backup-" ++ timestamp w.now ++ ".gz")
           (w.osRemove ("/tmp/mongodb-backup-" ++ timestamp w.now ++ ".gz"))]) ∧
    ((∃ path, Event.osRemove path none ∈ (main w).events) ↔
      w.osRemove ("/tmp/mongodb-backup-" ++ timestamp w.now ++ ".gz") = none) := by
  have hp1 := getEnv_some w _ _ hp
  have hb1 := getEnv_some w _ _ hb
  rw [← backupFile_eq, ← getEnv_user]
  unfold dumpResult at hd
  unfold uploadResult at hu
  rw [hp1] at hd
  rw [hb1] at hu
  obtain ⟨output, hdump⟩ := runMongoDump_success w _ _ _ _ _ hd
  obtain ⟨written, hup⟩ := uploadToGCS_success w _ _ _ hu
  have hobj : objectName (timestamp w.now) = "backup-" ++ timestamp w.now ++ ".gz" := rfl
  have hargs : mongoDumpArgs mongoHost mongoPort (getEnv w "MONGO_USER" "admin") p
      (backupFile (timestamp w.now)) =
      ["--host", "localhost", "--port", "27017", "--username",
        getEnv w "MONGO_USER" "admin", "--password", p,
        "--authenticationDatabase", "admin",
        "--archive=" ++ backupFile (timestamp w.now), "--gzip"] := rfl
  have hmem : Event.osRemove (backupFile (timestamp w.now))
      (w.osRemove (backupFile (timestamp w.now))) ∈ (main w).events := by
    unfold main
    simp only [hp1, hb1, hp0, hb0, if_false, hd, hu]
    cases hr : w.osRemove (backupFile (timestamp w.now)) <;> simp
  refine ⟨?_, ⟨output, written, ?_⟩, ?_⟩
  · unfold main
    simp only [hp1, hb1, hp0, hb0, if_false, hd, hu]
  · unfold main
    simp only [hp1, hb1, hp0, hb0, if_false, hd, hu]
    rw [hdump, hup, hobj, hargs]
    cases hs : w.osStat (backupFile (timestamp w.now)) <;>
      cases hr : w.osRemove (backupFile (timestamp w.now)) <;>
      simp [Event.isLog, uploadMetadata]
  · constructor
    · rintro ⟨path, hm⟩
      exact (main_remove_events w path none hm).2.symm
    · intro hnone
      refine ⟨backupFile (timestamp w.now), ?_⟩
      rw [hnone] at hmem
      exact hmem

theorem main_success_witness :
    (main worldOK).exit = 0 ∧
    ∃ path, Event.osRemove path none ∈ (main worldOK).events :=
  have h := main_success worldOK "s3cret" "backups" (by decide) (by decide) (by decide)
    (by decide) (by decide) (by decide)
  ⟨h.1, h.2.2.2 rfl⟩

/-- C8. Whenever `uploadToGCS` gets as far as opening an object writer (the
storage client was created and the local file opened, whatever its content,
a zero-byte file included), its trace starts with client, open, timeout
context, `NewWriter`, then content type `application/gzip`, then the
metadata with exactly the two entries `created` (the upload's `time.Now()` in
RFC 3339) and `source` (`mongodb-backup-script`), and only then the copy of the
file into the writer; the metadata is a function of the clock reading only. -/
theorem uploadToGCS_writer_configured (w : World) (f b o : String) (content : List Nat)
    (hc : w.storageNewClient = none) (ho : w.osOpen f = .ok content) :
    ∃ written err rest,
      (uploadToGCS w f b o).1 =
        [.storageNewClient none, .osOpen f none, .contextWithTimeout 10,
         .newWriter b o,
         .setContentType "application/gzip",
         .setMetadata [("created", w.uploadNow.Format RFC3339),
                       ("source", "mongodb-backup-script")],
         .writeTo f written err] ++ rest := by
  unfold uploadToGCS
  simp only [hc, ho]
  cases hw : (w.writeTo content).2 with
  | some e => exact ⟨(w.writeTo content).1, some e, _, by simp [uploadMetadata]; rfl⟩
  | none =>
    cases hcl : w.writerClose with
    | some e => exact ⟨(w.writeTo content).1, none, _, by simp [uploadMetadata]; rfl⟩
    | none => exact ⟨(w.writeTo content).1, none, _, by simp [uploadMetadata]; rfl⟩

theorem uploadToGCS_writer_configured_witness :
    worldOK.osOpen "/tmp/x.gz" = .ok [] ∧
    ∃ written err rest,
      (uploadToGCS worldOK "/tmp/x.gz" "backups" "backup-x.gz").1 =
        [.storageNewClient none, .osOpen "/tmp/x.gz" none, .contextWithTimeout 10,
         .newWriter "backups" "backup-x.gz",
         .setContentType "application/gzip",
         .setMetadata [("created", worldOK.uploadNow.Format RFC3339),
                       ("source", "mongodb-backup-script")],
         .writeTo "/tmp/x.gz" written err] ++ rest :=
  ⟨rfl, uploadToGCS_writer_configured worldOK "/tmp/x.gz" "backups" "backup-x.gz" []
    rfl rfl⟩

theorem foldl_holdStep_of_not_upload (l : List Event) (held : List Handle)
    (h : ∀ e ∈ l, e.isUpload = false) : l.foldl holdStep held = held := by
  induction l generalizing held with
  | nil => rfl
  | cons e l ih =>
    have he : e.isUpload = false := h e (List.mem_cons_self _ _)
    have hstep : holdStep held e = held := by
      clear h ih
      cases e <;> first | rfl | (simp [Event.isUpload] at he)
    rw [List.foldl_cons, hstep]
    exact ih held (fun x hx => h x (List.mem_cons_of_mem _ hx))

/-- While the copy runs, the three handles of the upload step are held. -/
theorem heldAfter_setup (f b o : String) :
    heldAfter [.storageNewClient none, .osOpen f none, .contextWithTimeout 10,
      .newWriter b o, .setContentType "application/gzip"] =
      [.writer b o, .file f, .client] := rfl

theorem heldAfter_uploadToGCS (w : World) (f b o : String) :
    heldAfter (uploadToGCS w f b o).1 = [] ∨
      (heldAfter (uploadToGCS w f b o).1 = [.writer b o] ∧
        ∃ n e, Event.writeTo f n (some e) ∈ (uploadToGCS w f b o).1) := by
  unfold heldAfter uploadToGCS
  cases hc : w.storageNewClient with
  | some e => left; simp [holdStep]
  | none =>
    cases hopen : w.osOpen f with
    | error e => left; simp [holdStep]
    | ok content =>
      simp only
      cases hw : (w.writeTo content).2 with
      | some e =>
        right
        refine ⟨by simp [holdStep], (w.writeTo content).1, e, by simp⟩
      | none =>
        cases hcl : w.writerClose with
        | some e => left; simp [holdStep, Handle.isWriter]
        | none => left; simp [holdStep, Handle.isWriter]

theorem uploadToGCS_cancel_after_newWriter (w : World) (f b o b1 o1 : String)
    (h : Event.newWriter b1 o1 ∈ (uploadToGCS w f b o).1) :
    ∃ pre, (uploadToGCS w f b o).1 = pre ++ [.cancel, .fileClose f, .clientClose] ∧
      Event.newWriter b1 o1 ∈ pre := by
  unfold uploadToGCS at h ⊢
  cases hc : w.storageNewClient with
  | some e => simp [hc] at h
  | none =>
    cases hopen : w.osOpen f with
    | error e => simp [hc, hopen] at h
    | ok content =>
      simp only [hc, hopen] at h ⊢
      cases hw : (w.writeTo content).2 with
      | some e =>
        simp only [hw] at h ⊢
        refine ⟨_, rfl, ?_⟩
        simp at h
        simp [h]
      | none =>
        cases hcl : w.writerClose with
        | some e =>
          simp only [hw, hcl] at h ⊢
          refine ⟨_, rfl, ?_⟩
          simp at h
          simp [h]
        | none =>
          simp only [hw, hcl] at h ⊢
          refine ⟨_, rfl, ?_⟩
          simp at h
          simp [h]

theorem heldAfter_main (w : World) :
    heldAfter (main w).events = [] ∨
      (heldAfter (main w).events =
          heldAfter (uploadToGCS w (backupFile (timestamp w.now))
            (getEnv w "BACKUP_BUCKET" "") (objectName (timestamp w.now))).1 ∧
        ∀ e ∈ (uploadToGCS w (backupFile (timestamp w.now))
            (getEnv w "BACKUP_BUCKET" "") (objectName (timestamp w.now))).1,
          e ∈ (main w).events) := by
  have hdump : ∀ h p u pw f held,
      (runMongoDump w h p u pw f).1.foldl holdStep held = held := by
    intro h p u pw f held
    exact foldl_holdStep_of_not_upload _ _ (fun e he => (runMongoDump_events w h p u pw f e he).1)
  unfold heldAfter main
  by_cases hp : getEnv w "MONGO_PASSWORD" "" = ""
  · left; simp [hp, holdStep]
  by_cases hb : getEnv w "BACKUP_BUCKET" "" = ""
  · left; simp [hp, hb, holdStep]
  simp only [hp, hb, if_false]
  split
  · left; simp [List.foldl_append, hdump, holdStep]
  · right
    split
    · constructor
      · simp only [List.foldl_append, hdump]
        split <;> simp [holdStep]
      · intro e he
        simp [he]
    · constructor
      · simp only [List.foldl_append, hdump]
        split <;> split <;> simp [holdStep]
      · intro e he
        simp [he]

/-- C10 (as stated, refuted). When the copy into the object writer fails,
`uploadToGCS` returns after the deferred `cancel`, `f.Close` and
`client.Close` without ever calling `wc.Close`: the client and the file are
released, the object writer it opened is not closed, and `main` then ends the
process with status 1. -/
theorem upload_writer_left_open :
    (uploadToGCS worldWriteFails "/tmp/x.gz" "backups" "backup-x.gz").1 =
      [.storageNewClient none, .osOpen "/tmp/x.gz" none, .contextWithTimeout 10,
       .newWriter "backups" "backup-x.gz",
       .setContentType "application/gzip",
       .setMetadata [("created", "2024-01-02T03:04:09Z"),
                     ("source", "mongodb-backup-script")],
       .writeTo "/tmp/x.gz" 0 (some "connection reset"),
       .cancel, .fileClose "/tmp/x.gz", .clientClose] ∧
    heldAfter (uploadToGCS worldWriteFails "/tmp/x.gz" "backups" "backup-x.gz").1 =
      [.writer "backups" "backup-x.gz"] ∧
    (main worldWriteFails).exit = 1 ∧
    heldAfter (main worldWriteFails).events =
      [.writer "backups" "backup-20240102-030405.gz"] :=
  ⟨rfl, rfl, rfl, rfl⟩

/-- C10 (amended). On every return of `uploadToGCS`, error returns included,
the storage client and the local file it opened have been closed; whenever a
writer was created, the trace ends with the deferred `cancel` of the writer's
context, `f.Close` and `client.Close`; and on every return other than the
write-error one (where `wc.Close` is not called) the writer has been closed
too, so that no handle is held.  The same holds for every run of `main`,
ended by `log.Fatalf` or normally. -/
theorem upload_handles_released (w : World) (f b o : String) :
    (Handle.client ∉ heldAfter (uploadToGCS w f b o).1 ∧
      ∀ p, Handle.file p ∉ heldAfter (uploadToGCS w f b o).1) ∧
    ((∀ n e, Event.writeTo f n (some e) ∉ (uploadToGCS w f b o).1) →
      heldAfter (uploadToGCS w f b o).1 = []) ∧
    (∀ b1 o1, Event.newWriter b1 o1 ∈ (uploadToGCS w f b o).1 →
      ∃ pre, (uploadToGCS w f b o).1 = pre ++ [.cancel, .fileClose f, .clientClose] ∧
        Event.newWriter b1 o1 ∈ pre) ∧
    (Handle.client ∉ heldAfter (main w).events ∧
      ∀ p, Handle.file p ∉ heldAfter (main w).events) ∧
    ((∀ p n e, Event.writeTo p n (some e) ∉ (main w).events) →
      heldAfter (main w).events = []) := by
  have key : ∀ f b o, (Handle.client ∉ heldAfter (uploadToGCS w f b o).1 ∧
      ∀ p, Handle.file p ∉ heldAfter (uploadToGCS w f b o).1) ∧
      ((∀ p n e, Event.writeTo p n (some e) ∉ (uploadToGCS w f b o).1) →
        heldAfter (uploadToGCS w f b o).1 = []) := by
    intro f b o
    rcases heldAfter_uploadToGCS w f b o with h | ⟨h, n, e, hm⟩
    · rw [h]; simp
    · rw [h]
      refine ⟨by simp, ?_⟩
      intro hno
      exact absurd hm (hno f n e)
  refine ⟨(key f b o).1, ?_, uploadToGCS_cancel_after_newWriter w f b o, ?_, ?_⟩
  · intro hno
    rcases heldAfter_uploadToGCS w f b o with h | ⟨h, n, e, hm⟩
    · exact h
    · exact absurd hm (hno n e)
  · rcases heldAfter_main w with h | ⟨h, -⟩
    · rw [h]; simp
    · rw [h]; exact (key _ _ _).1
  · intro hno
    rcases heldAfter_main w with h | ⟨h, hsub⟩
    · exact h
    · rw [h]
      exact (key _ _ _).2 (fun p n e hm => hno p n e (hsub _ hm))

/-! ## Decimal rendering -/

theorem digitChar_val (d : Nat) (h : d < 10) : (Nat.digitChar d).toNat - 48 = d := by
  interval_cases d <;> rfl

theorem digitChar_isDigit (d : Nat) (h : d < 10) : (Nat.digitChar d).isDigit = true := by
  interval_cases d <;> rfl

theorem digitChar_inj (a b : Nat) (ha : a < 10) (hb : b < 10)
    (h : Nat.digitChar a = Nat.digitChar b) : a = b := by
  rw [← digitChar_val a ha, ← digitChar_val b hb, h]

theorem digitsVal_append_singleton (l : List Char) (c : Char) :
    digitsVal (l ++ [c]) = 10 * digitsVal l + (c.toNat - 48) := by
  simp [digitsVal, List.foldl_append]

theorem digitsVal_decDigits (fuel u : Nat) (h : u < fuel) :
    digitsVal (decDigits fuel u) = u := by
  induction fuel generalizing u with
  | zero => omega
  | succ fuel ih =>
    unfold decDigits
    by_cases hu : u < 10
    · simp [hu, digitsVal, digitChar_val u hu]
    · simp only [hu, if_false]
      rw [digitsVal_append_singleton, ih (u / 10) (by omega),
        digitChar_val (u % 10) (by omega)]
      omega

theorem decDigits_isDigit (fuel u : Nat) : ∀ c ∈ decDigits fuel u, c.isDigit = true := by
  induction fuel generalizing u with
  | zero => intro c hc; simp [decDigits] at hc
  | succ fuel ih =>
    intro c hc
    unfold decDigits at hc
    by_cases hu : u < 10
    · simp [hu] at hc
      rw [hc]
      exact digitChar_isDigit u hu
    · simp only [hu, if_false, List.mem_append, List.mem_singleton] at hc
      rcases hc with hc | hc
      · exact ih _ c hc
      · rw [hc]
        exact digitChar_isDigit _ (by omega)

theorem decDigits_length_le (fuel u k : Nat) (h : u < 10 ^ (k + 1)) :
    (decDigits fuel u).length ≤ k + 1 := by
  induction fuel generalizing u k with
  | zero => simp [decDigits]
  | succ fuel ih =>
    unfold decDigits
    by_cases hu : u < 10
    · simp [hu]
    · simp only [hu, if_false, List.length_append, List.length_singleton]
      cases k with
      | zero => simp at h; omega
      | succ k =>
        have : u / 10 < 10 ^ (k + 1) := by
          rw [Nat.div_lt_iff_lt_mul (by norm_num)]
          rw [pow_succ] at h
          exact h
        have := ih (u / 10) k this
        omega

theorem utod_ne_nil (u : Nat) : utod u ≠ [] := by
  unfold utod decDigits
  by_cases hu : u < 10 <;> simp [hu]

theorem digitsVal_replicate_zero (k : Nat) (l : List Char) :
    digitsVal (List.replicate k '0' ++ l) = digitsVal l := by
  induction k with
  | zero => simp
  | succ k ih =>
    have h0 : ∀ m : List Char, digitsVal ('0' :: m) = digitsVal m := by
      intro m
      simp [digitsVal]
    rw [List.replicate_succ, List.cons_append, h0, ih]

/-- Two-digit fields: a value below 100 is rendered as its tens digit and its
units digit. -/
theorem appendInt_two (n : Nat) (h : n < 100) :
    appendInt (n : Int) 2 = [Nat.digitChar (n / 10), Nat.digitChar (n % 10)] := by
  have hneg : ¬ ((n : Int) < 0) := by omega
  unfold appendInt
  simp only [hneg, if_false, Int.natAbs_ofNat, List.nil_append]
  by_cases hu : n < 10
  · have h1 : utod n = [Nat.digitChar n] := by
      unfold utod decDigits; simp [hu]
    have h2 : n / 10 = 0 := by omega
    have h3 : n % 10 = n := by omega
    rw [h1, h2, h3]
    rfl
  · have h1 : utod n = [Nat.digitChar (n / 10), Nat.digitChar (n % 10)] := by
      unfold utod decDigits
      simp only [hu, if_false]
      obtain ⟨m, hm⟩ : ∃ m, n = m + 1 := ⟨n - 1, by omega⟩
      subst hm
      unfold decDigits
      have : (m + 1) / 10 < 10 := by omega
      simp [this]
    rw [h1]
    rfl

theorem appendInt_head (x : Int) (w : Nat) :
    if x < 0 then ∃ r, appendInt x w = '-' :: r
    else ∃ c r, appendInt x w = c :: r ∧ c.isDigit = true := by
  unfold appendInt
  by_cases hx : x < 0
  · simp [hx]
  · simp only [hx, if_false, List.nil_append]
    have hd : ∀ c ∈ List.replicate (w - (utod x.natAbs).length) '0' ++ utod x.natAbs,
        c.isDigit = true := by
      intro c hc
      rw [List.mem_append] at hc
      rcases hc with hc | hc
      · rw [List.eq_of_mem_replicate hc]; rfl
      · exact decDigits_isDigit _ _ c hc
    cases hl : List.replicate (w - (utod x.natAbs).length) '0' ++ utod x.natAbs with
    | nil =>
      have := utod_ne_nil x.natAbs
      simp at hl
      exact absurd hl.2 this
    | cons c r =>
      rw [hl] at hd
      exact ⟨c, r, rfl, hd c (List.mem_cons_self _ _)⟩

theorem appendInt_inj (x y : Int) (w : Nat) (h : appendInt x w = appendInt y w) : x = y := by
  have hx := appendInt_head x w
  have hy := appendInt_head y w
  have hval : ∀ z : Int, digitsVal
      (List.replicate (w - (utod z.natAbs).length) '0' ++ utod z.natAbs) = z.natAbs := by
    intro z
    rw [digitsVal_replicate_zero]
    exact digitsVal_decDigits _ _ (by omega)
  by_cases hx0 : x < 0 <;> by_cases hy0 : y < 0
  · have hv : x.natAbs = y.natAbs := by
      rw [← hval x, ← hval y]
      unfold appendInt at h
      simp only [hx0, hy0, if_true] at h
      rw [List.append_assoc, List.append_assoc] at h
      rw [List.append_cancel_left h]
    omega
  · simp only [hx0, hy0, if_true, if_false] at hx hy
    obtain ⟨r, hr⟩ := hx
    obtain ⟨c, r2, hc, hd⟩ := hy
    rw [hr, hc] at h
    simp only [List.cons.injEq] at h
    rw [← h.1] at hd
    exact absurd hd (by decide)
  · simp only [hx0, hy0, if_true, if_false] at hx hy
    obtain ⟨r, hr⟩ := hy
    obtain ⟨c, r2, hc, hd⟩ := hx
    rw [hr, hc] at h
    simp only [List.cons.injEq] at h
    rw [h.1] at hd
    exact absurd hd (by decide)
  · have hv : x.natAbs = y.natAbs := by
      rw [← hval x, ← hval y]
      unfold appendInt at h
      simp only [hx0, hy0, if_false, List.nil_append] at h
      rw [h]
    omega

/-! ## Names of the artifact and of the object -/

theorem timestamp_data (t : Time) :
    (timestamp t).data =
      appendInt t.year 4 ++
        (appendInt t.month 2 ++ (appendInt t.day 2 ++ ('-' ::
          (appendInt t.hour 2 ++ (appendInt t.minute 2 ++ appendInt t.second 2))))) := by
  simp [timestamp, Time.Format, layoutStamp, appendChunk]

theorem timestamp_data_valid (t : Time) (h : t.Valid) :
    (timestamp t).data =
      appendInt t.year 4 ++
        [Nat.digitChar (t.month / 10), Nat.digitChar (t.month % 10),
         Nat.digitChar (t.day / 10), Nat.digitChar (t.day % 10), '-',
         Nat.digitChar (t.hour / 10), Nat.digitChar (t.hour % 10),
         Nat.digitChar (t.minute / 10), Nat.digitChar (t.minute % 10),
         Nat.digitChar (t.second / 10), Nat.digitChar (t.second % 10)] := by
  obtain ⟨h1, h2, h3, h4, h5, h6, h7⟩ := h
  rw [timestamp_data, appendInt_two t.month (by omega), appendInt_two t.day (by omega),
    appendInt_two t.hour (by omega), appendInt_two t.minute (by omega),
    appendInt_two t.second (by omega)]
  rfl

theorem two_digits_inj (a b : Nat) (ha : a < 100) (hb : b < 100)
    (h1 : Nat.digitChar (a / 10) = Nat.digitChar (b / 10))
    (h2 : Nat.digitChar (a % 10) = Nat.digitChar (b % 10)) : a = b := by
  have e1 := digitChar_inj _ _ (by omega) (by omega) h1
  have e2 := digitChar_inj _ _ (by omega) (by omega) h2
  omega

theorem timestamp_inj (t1 t2 : Time) (h1 : t1.Valid) (h2 : t2.Valid)
    (h : timestamp t1 = timestamp t2) : t1.fields = t2.fields := by
  have hd := congrArg String.data h
  rw [timestamp_data_valid t1 h1, timestamp_data_valid t2 h2] at hd
  obtain ⟨hy, hr⟩ := List.append_inj' hd rfl
  obtain ⟨a1, a2, a3, a4, a5, a6, a7⟩ := h1
  obtain ⟨b1, b2, b3, b4, b5, b6, b7⟩ := h2
  simp only [List.cons.injEq, and_true, true_and] at hr
  obtain ⟨m1, m2, d1, d2, o1, o2, n1, n2, s1, s2⟩ := hr
  have ey := appendInt_inj _ _ _ hy
  have em := two_digits_inj _ _ (by omega) (by omega) m1 m2
  have ed := two_digits_inj _ _ (by omega) (by omega) d1 d2
  have eh := two_digits_inj _ _ (by omega) (by omega) o1 o2
  have en := two_digits_inj _ _ (by omega) (by omega) n1 n2
  have es := two_digits_inj _ _ (by omega) (by omega) s1 s2
  simp [Time.fields, ey, em, ed, eh, en, es]

theorem objectName_inj (a b : String) (h : objectName a = objectName b) : a = b := by
  unfold objectName at h
  have hd := congrArg String.data h
  simp only [String.data_append] at hd
  have h1 := List.append_cancel_right hd
  have h2 := List.append_cancel_left h1
  exact String.ext h2

theorem backupFile_inj (a b : String) (h : backupFile a = backupFile b) : a = b := by
  unfold backupFile at h
  have hd := congrArg String.data h
  simp only [String.data_append] at hd
  have h1 := List.append_cancel_right hd
  have h2 := List.append_cancel_left h1
  exact String.ext h2

theorem uploadToGCS_newWriter (w : World) (f b o b1 o1 : String)
    (h : Event.newWriter b1 o1 ∈ (uploadToGCS w f b o).1) : b1 = b ∧ o1 = o := by
  unfold uploadToGCS at h
  cases hc : w.storageNewClient with
  | some e => simp [hc] at h
  | none =>
    cases hopen : w.osOpen f with
    | error e => simp [hc, hopen] at h
    | ok content =>
      simp only [hc, hopen] at h
      cases hw : (w.writeTo content).2 with
      | some e => simp [hw] at h; exact h
      | none =>
        cases hcl : w.writerClose with
        | some e => simp [hw, hcl] at h; exact h
        | none => simp [hw, hcl] at h; exact h

theorem runMongoDump_no_newWriter (w : World) (h p u pw f b o : String) :
    Event.newWriter b o ∉ (runMongoDump w h p u pw f).1 := by
  intro hm
  have := (runMongoDump_events w h p u pw f _ hm).1
  simp [Event.isUpload] at this

/-- The object name of every writer that a run opens is the one `main`
computes from its timestamp. -/
theorem main_newWriter (w : World) (b o : String)
    (h : Event.newWriter b o ∈ (main w).events) :
    o = objectName (timestamp w.now) := by
  unfold main at h
  by_cases hp : getEnv w "MONGO_PASSWORD" "" = ""
  · simp [hp] at h
  by_cases hb : getEnv w "BACKUP_BUCKET" "" = ""
  · simp [hp, hb] at h
  simp only [hp, hb, if_false] at h
  have hsized : Event.newWriter b o ∉
      (match w.osStat (backupFile (timestamp w.now)) with
        | .error err =>
          [Event.osStat (backupFile (timestamp w.now)) (.error err),
           Event.logPrintf "Warning: Could not get file size: %v" [.str err]]
        | .ok size =>
          [Event.osStat (backupFile (timestamp w.now)) (.ok size),
           Event.logPrintf "Backup size: %d bytes (%.2f MB)"
             [.int size, .float size (1024 * 1024)]]) := by
    split <;> simp
  have hremoved : Event.newWriter b o ∉
      (match w.osRemove (backupFile (timestamp w.now)) with
        | some err =>
          [Event.osRemove (backupFile (timestamp w.now)) (some err),
           Event.logPrintf "Warning: Could not remove local backup file: %v" [.str err]]
        | none =>
          [Event.osRemove (backupFile (timestamp w.now)) none,
           Event.logPrintf "Local backup file removed" []]) := by
    split <;> simp
  split at h
  · simp [runMongoDump_no_newWriter] at h
  · split at h
    · simp only [List.mem_append, List.mem_singleton, List.mem_cons, List.not_mem_nil,
        runMongoDump_no_newWriter, hsized, false_or, or_false, reduceCtorEq] at h
      exact (uploadToGCS_newWriter _ _ _ _ _ _ h).2
    · simp only [List.mem_append, List.mem_singleton, List.mem_cons, List.not_mem_nil,
        runMongoDump_no_newWriter, hsized, hremoved, false_or, or_false, reduceCtorEq] at h
      exact (uploadToGCS_newWriter _ _ _ _ _ _ h).2

theorem fields_ne_of_unix_ne (t1 t2 : Time) (ho : t1.offset = t2.offset)
    (hu : 1 ≤ (t1.unix - t2.unix).natAbs) : t1.fields ≠ t2.fields := by
  intro hf
  have ht : t1 = t2 := by
    cases t1
    cases t2
    simp only [Time.fields, Prod.mk.injEq] at hf
    simp only at ho
    obtain ⟨a1, a2, a3, a4, a5, a6⟩ := hf
    subst a1 a2 a3 a4 a5 a6 ho
    rfl
  rw [ht] at hu
  simp at hu

/-- C7 (amended). Two runs compute distinct object names and distinct local
artifact paths, and never open a writer for the same object name, whenever
their clock readings differ in at least one of year, month, day, hour, minute,
second; in particular whenever their start times are at least one second
apart and are read in the same zone offset. -/
theorem names_distinct (w1 w2 : World) (h1 : w1.now.Valid) (h2 : w2.now.Valid)
    (hapart : w1.now.fields ≠ w2.now.fields ∨
      (w1.now.offset = w2.now.offset ∧ 1 ≤ (w1.now.unix - w2.now.unix).natAbs)) :
    objectName (timestamp w1.now) ≠ objectName (timestamp w2.now) ∧
    backupFile (timestamp w1.now) ≠ backupFile (timestamp w2.now) ∧
    ∀ b1 o1 b2 o2, Event.newWriter b1 o1 ∈ (main w1).events →
      Event.newWriter b2 o2 ∈ (main w2).events → o1 ≠ o2 := by
  have hne : w1.now.fields ≠ w2.now.fields := by
    rcases hapart with h | ⟨ho, hu⟩
    · exact h
    · exact fields_ne_of_unix_ne _ _ ho hu
  have hobj : objectName (timestamp w1.now) ≠ objectName (timestamp w2.now) := by
    intro h
    exact hne (timestamp_inj _ _ h1 h2 (objectName_inj _ _ h))
  refine ⟨hobj, ?_, ?_⟩
  · intro h
    exact hne (timestamp_inj _ _ h1 h2 (backupFile_inj _ _ h))
  · intro b1 o1 b2 o2 m1 m2 h
    rw [main_newWriter w1 b1 o1 m1, main_newWriter w2 b2 o2 m2] at h
    exact hobj h

theorem main_worldOK_events :
    (main worldOK).events.filter (fun e => !e.isLog) =
      [.combinedOutput "mongodump"
          ["--host", "localhost", "--port", "27017", "--username", "admin",
           "--password", "s3cret", "--authenticationDatabase", "admin",
           "--archive=/tmp/mongodb-backup-20240102-030405.gz", "--gzip"] "done" none,
       .osStat "/tmp/mongodb-backup-20240102-030405.gz" (.ok 0),
       .storageNewClient none,
       .osOpen "/tmp/mongodb-backup-20240102-030405.gz" none,
       .contextWithTimeout 10,
       .newWriter "backups" "backup-20240102-030405.gz",
       .setContentType "application/gzip",
       .setMetadata [("created", "2024-01-02T03:04:09Z"), ("source", "mongodb-backup-script")],
       .writeTo "/tmp/mongodb-backup-20240102-030405.gz" 0 none,
       .writerClose none,
       .cancel,
       .fileClose "/tmp/mongodb-backup-20240102-030405.gz",
       .clientClose,
       .osRemove "/tmp/mongodb-backup-20240102-030405.gz" none] := by
  rfl

theorem main_worldOK_newWriter :
    Event.newWriter "backups" "backup-20240102-030405.gz" ∈ (main worldOK).events := by
  have h : Event.newWriter "backups" "backup-20240102-030405.gz" ∈
      (main worldOK).events.filter (fun e => !e.isLog) := by
    rw [main_worldOK_events]
    simp
  exact (List.mem_filter.1 h).1

theorem appendInt_year_length (y : Int) (h0 : 0 ≤ y) (h1 : y ≤ 9999) :
    (appendInt y 4).length = 4 ∧ ∀ c ∈ appendInt y 4, c.isDigit = true := by
  have hneg : ¬ (y < 0) := by omega
  have hlen : (utod y.natAbs).length ≤ 4 :=
    decDigits_length_le _ _ 3 (by norm_num; omega)
  unfold appendInt
  simp only [hneg, if_false, List.nil_append]
  constructor
  · rw [List.length_append, List.length_replicate]
    omega
  · intro c hc
    rw [List.mem_append] at hc
    rcases hc with hc | hc
    · rw [List.eq_of_mem_replicate hc]; rfl
    · exact decDigits_isDigit _ _ c hc

/-- C6 (as stated, refuted). The run in `worldOK` opens a writer for the
object `backup-20240102-030405.gz`, and that name is not of the form
`<prefix>-<14 decimal digits>.gz` for any prefix: what lies between `backup-`
and `.gz` has 15 characters, a hyphen among them.  Moreover a clock reading in
the year 10000 gives a timestamp with 15 digits, the year taking five. -/
theorem objectName_not_fourteen_digits :
    Event.newWriter "backups" "backup-20240102-030405.gz" ∈ (main worldOK).events ∧
    (¬ ∃ pre ts : String, ts.length = 14 ∧ (∀ c ∈ ts.data, c.isDigit = true) ∧
        "backup-20240102-030405.gz" = pre ++ "-" ++ ts ++ ".gz") ∧
    objectName (timestamp ⟨10000, 1, 2, 3, 4, 5, 0⟩) = "backup-100000102-030405.gz" := by
  refine ⟨main_worldOK_newWriter, ?_, by decide⟩
  rintro ⟨pre, ts, hlen, -, heq⟩
  have hd := congrArg String.data heq
  simp only [String.data_append] at hd
  have hts : ts.data.length = 14 := hlen
  have hl := congrArg List.length hd
  simp only [List.length_append, List.length_cons, List.length_nil, hts] at hl
  have hpre : (pre.data ++ ['-']).length = 8 := by
    rw [List.length_append, List.length_singleton]
    omega
  rw [List.append_assoc] at hd
  have h8 := congrArg (List.take 8) hd
  rw [List.take_left' hpre] at h8
  have h9 := congrArg List.reverse h8
  simp at h9

/-- C6 (amended). For every run time with a four-digit year (0 to 9999), the
object name of a writer opened by `main` is `backup-<date>-<clock>.gz`, where
`<date>` is 8 decimal digits (year, month, day) and `<clock>` is 6 decimal
digits (hour, minute, second): the timestamp between `backup-` and `.gz` is 14
decimal digits in two groups separated by a hyphen. -/
theorem objectName_format (w : World) (b o : String)
    (h : Event.newWriter b o ∈ (main w).events)
    (hv : w.now.Valid) (hy0 : 0 ≤ w.now.year) (hy1 : w.now.year ≤ 9999) :
    ∃ date clock : String,
      date.length = 8 ∧ clock.length = 6 ∧
      (∀ c ∈ date.data, c.isDigit = true) ∧ (∀ c ∈ clock.data, c.isDigit = true) ∧
      o = "backup-" ++ date ++ "-" ++ clock ++ ".gz" := by
  obtain ⟨hlen, hdig⟩ := appendInt_year_length w.now.year hy0 hy1
  have hdata := timestamp_data_valid w.now hv
  obtain ⟨h1, h2, h3, h4, h5, h6, h7⟩ := hv
  refine ⟨String.mk (appendInt w.now.year 4 ++
      [Nat.digitChar (w.now.month / 10), Nat.digitChar (w.now.month % 10),
       Nat.digitChar (w.now.day / 10), Nat.digitChar (w.now.day % 10)]),
    String.mk [Nat.digitChar (w.now.hour / 10), Nat.digitChar (w.now.hour % 10),
       Nat.digitChar (w.now.minute / 10), Nat.digitChar (w.now.minute % 10),
       Nat.digitChar (w.now.second / 10), Nat.digitChar (w.now.second % 10)],
    ?_, ?_, ?_, ?_, ?_⟩
  · show (appendInt w.now.year 4 ++ _).length = 8
    rw [List.length_append, hlen]
    rfl
  · rfl
  · intro c hc
    simp only [List.mem_append, List.mem_cons, List.mem_singleton, List.not_mem_nil,
      or_false] at hc
    rcases hc with hc | hc | hc | hc | hc
    · exact hdig c hc
    all_goals (rw [hc]; exact digitChar_isDigit _ (by omega))
  · intro c hc
    simp only [List.mem_cons, List.mem_singleton, List.not_mem_nil, or_false] at hc
    rcases hc with hc | hc | hc | hc | hc | hc
    all_goals (rw [hc]; exact digitChar_isDigit _ (by omega))
  · rw [main_newWriter w b o h]
    unfold objectName
    apply String.ext
    simp only [String.data_append, hdata]
    simp

theorem objectName_format_witness :
    ∃ date clock : String,
      date.length = 8 ∧ clock.length = 6 ∧
      (∀ c ∈ date.data, c.isDigit = true) ∧ (∀ c ∈ clock.data, c.isDigit = true) ∧
      "backup-20240102-030405.gz" = "backup-" ++ date ++ "-" ++ clock ++ ".gz" :=
  objectName_format worldOK "backups" "backup-20240102-030405.gz" main_worldOK_newWriter
    (by decide) (by decide) (by decide)

theorem names_distinct_witness :
    worldOK.now.offset = worldLater.now.offset ∧
    worldLater.now.unix - worldOK.now.unix = 1 ∧
    objectName (timestamp worldOK.now) ≠ objectName (timestamp worldLater.now) :=
  ⟨rfl, by decide,
    (names_distinct worldOK worldLater (by decide) (by decide)
      (Or.inr ⟨rfl, by decide⟩)).1⟩

theorem mem_of_filter_eq_singleton (l : List Event) (p : Event → Bool) (x : Event)
    (h : l.filter p = [x]) : x ∈ l := by
  have hx : x ∈ l.filter p := by
    rw [h]
    exact List.mem_singleton.2 rfl
  exact (List.mem_filter.1 hx).1

theorem isNewWriter_filter_worldEDT :
    (main worldEDT).events.filter
        (fun e => match e with
          | .newWriter _ _ => true
          | _ => false) =
      [.newWriter "backups" "backup-20241103-013000.gz"] := rfl

theorem isNewWriter_filter_worldEST :
    (main worldEST).events.filter
        (fun e => match e with
          | .newWriter _ _ => true
          | _ => false) =
      [.newWriter "backups" "backup-20241103-013000.gz"] := rfl

/-- C7 (as stated, refuted). The runs `worldEDT` and `worldEST` both read
01:30:00 on 2024-11-03 from the local clock, the first four and the second
five hours west of UTC, so their start times are 3600 seconds apart; yet both
compute the local path `/tmp/mongodb-backup-20241103-013000.gz` and both open a
writer for the object `backup-20241103-013000.gz`. -/
theorem names_collide_across_offsets :
    worldEDT.now.Valid ∧ worldEST.now.Valid ∧
    worldEDT.now.unix = 1730611800 ∧ worldEST.now.unix = 1730615400 ∧
    objectName (timestamp worldEDT.now) = objectName (timestamp worldEST.now) ∧
    backupFile (timestamp worldEDT.now) = backupFile (timestamp worldEST.now) ∧
    backupFile (timestamp worldEDT.now) = "/tmp/mongodb-backup-20241103-013000.gz" ∧
    Event.newWriter "backups" "backup-20241103-013000.gz" ∈ (main worldEDT).events ∧
    Event.newWriter "backups" "backup-20241103-013000.gz" ∈ (main worldEST).events := by
  refine ⟨by decide, by decide, by decide, by decide, rfl, rfl, by decide, ?_, ?_⟩
  · exact mem_of_filter_eq_singleton _ _ _ isNewWriter_filter_worldEDT
  · exact mem_of_filter_eq_singleton _ _ _ isNewWriter_filter_worldEST

end Backup
